import Mathlib

/-!
Verification of the checksheet template and submission engine
(src/routes/cheeksheet/checksheet.js) against its specification.

All definitions below are shallow embeddings of the JavaScript source:
pure helpers become Lean functions on `String`/`List`, and the stateful
route handlers become explicit state-passing functions over a record of
database tables.  JavaScript strings are modelled as Lean `String`
(JS `toLowerCase` is modelled for the ASCII range, which is the range
the proved properties depend on).
-/

namespace Checksheet

/-! ## Schema-Change Detector: `isBreakingChange` (checksheet.js lines 35-53) -/

/-- The literal `breakingPairs` array from the source. -/
def breakingPairs : List (String × String) :=
  [("text", "number"),
   ("text", "date"),
   ("text", "datetime"),
   ("text", "time"),
   ("text", "boolean"),
   ("textbox", "number"),
   ("textbox", "date"),
   ("number", "text"),
   ("number", "textbox"),
   ("date", "text"),
   ("datetime", "text"),
   ("boolean", "text"),
   ("calculation", "text")]

/-- `isBreakingChange(oldType, newType)`: true iff the pair occurs in
`breakingPairs` (source: `breakingPairs.some(([from, to]) => ...)`). -/
def isBreakingChange (oldType newType : String) : Bool :=
  breakingPairs.any (fun p => p.1 == oldType && p.2 == newType)

/-! ## Schema Translator: column-name sanitisation (checksheet.js lines 67-72)

`const safeName = (config.field_name || config.instanceId)
  .toLowerCase()
  .replace(/[^a-z0-9_]/g, "_")
  .replace(/_{2,}/g, "_")
  .replace(/^_+|_+$/g, "");`
-/

/-- JS `toLowerCase`, modelled on the ASCII range: code points 65-90 map up
by 32, everything else is unchanged. -/
def jsToLower (c : Char) : Char :=
  if 65 ≤ c.toNat ∧ c.toNat ≤ 90 then Char.ofNat (c.toNat + 32) else c

/-- The character class `[a-z0-9_]` used by the sanitiser regexes
(code points 97-122, 48-57, 95). -/
def isAllowed (c : Char) : Bool :=
  (decide (97 ≤ c.toNat) && decide (c.toNat ≤ 122)) ||
  (decide (48 ≤ c.toNat) && decide (c.toNat ≤ 57)) ||
  (c.toNat == 95)

/-- `.replace(/[^a-z0-9_]/g, "_")` acting on one character. -/
def replaceDisallowed (c : Char) : Char :=
  if isAllowed c then c else '_'

/-- Worker for underscore-run collapsing; the flag records whether the
previously emitted character was an underscore (in which case further
underscores of the same run are dropped). -/
def collapseAux : Bool → List Char → List Char
  | _, [] => []
  | prevU, c :: cs =>
    if c = '_' then
      cond prevU (collapseAux true cs) ('_' :: collapseAux true cs)
    else c :: collapseAux false cs

/-- `.replace(/_{2,}/g, "_")`: collapse every run of underscores to one. -/
def collapseRuns (l : List Char) : List Char := collapseAux false l

/-- `.replace(/^_+|_+$/g, "")`: drop the leading and trailing underscore runs. -/
def trimUnders (l : List Char) : List Char :=
  ((l.dropWhile (· == '_')).reverse.dropWhile (· == '_')).reverse

/-- The full column-name sanitiser from `createOptimizedTable`. -/
def sanitizeChars (l : List Char) : List Char :=
  trimUnders (collapseRuns ((l.map jsToLower).map replaceDisallowed))

/-- String version of the sanitiser. -/
def sanitize (s : String) : String := String.mk (sanitizeChars s.data)

/-- The weaker sanitisation applied to breaking-change field names inside
`migrateNonBreakingData` (line 169): lower-casing and character replacement
only — no run collapsing, no trimming. -/
def rawSanitize (s : String) : String :=
  String.mk ((s.data.map jsToLower).map replaceDisallowed)

/-- JS `toLowerCase` on a whole string (ASCII model). -/
def jsToLowerStr (s : String) : String := String.mk (s.data.map jsToLower)

/-- No two consecutive underscores anywhere in the list. -/
def NoDouble (l : List Char) : Prop :=
  l.Chain' (fun a b => ¬(a = '_' ∧ b = '_'))


/-! ## Dynamic Table Manager: `createOptimizedTable` (checksheet.js lines 56-117) -/

/-- A field configuration entry as consumed by `createOptimizedTable`:
the key of the entry in `field_configurations` (its instance id), the
optional `field_name`, and the declared logical `type`. -/
structure FieldConfig where
  instanceId : String
  field_name : Option String
  type : String
  deriving Repr, DecidableEq

/-- JS `config.field_name || config.instanceId` (the empty string is falsy). -/
def effName (c : FieldConfig) : String :=
  match c.field_name with
  | some n => if n = "" then c.instanceId else n
  | none => c.instanceId

/-- Physical column type per declared logical type (the `switch` statement). -/
def columnTypeOf (t : String) : String :=
  if t = "number" ∨ t = "calculation" then "DECIMAL(12,4)"
  else if t = "date" then "DATE"
  else if t = "datetime" then "TIMESTAMP"
  else if t = "time" then "TIME"
  else if t = "boolean" then "BOOLEAN"
  else "TEXT"

/-- A column of the generated `CREATE TABLE`: identifier and physical type. -/
structure ColumnDef where
  name : String
  ctype : String
  deriving Repr, DecidableEq

/-- The column generated for one field configuration: `safeName` is the
sanitised effective name, with no emptiness check. -/
def fieldColumn (c : FieldConfig) : ColumnDef :=
  ⟨sanitize (effName c), columnTypeOf c.type⟩

/-- The five fixed metadata columns pushed first by `createOptimizedTable`. -/
def metadataColumns : List ColumnDef :=
  [⟨"id", "SERIAL PRIMARY KEY"⟩,
   ⟨"user_id", "INTEGER"⟩,
   ⟨"submitted_at", "TIMESTAMP DEFAULT NOW()"⟩,
   ⟨"template_version", "INTEGER DEFAULT 1"⟩,
   ⟨"original_submission_id", "INTEGER"⟩]

/-- The full column list of the generated `CREATE TABLE` statement:
metadata columns plus one column per field configuration (no filtering). -/
def tableColumns (cfgs : List FieldConfig) : List ColumnDef :=
  metadataColumns ++ cfgs.map fieldColumn

/-! ## Version Migrator: `migrateNonBreakingData` and type compatibility
(checksheet.js lines 119-307) -/

/-- A schema change record produced by `detectSchemaChanges`. -/
structure SchemaChange where
  fieldName : String
  oldType : String
  newType : String
  breakingChange : Bool
  deriving Repr, DecidableEq

/-- Is `sub` a contiguous sublist of `hay`? (JS `String.prototype.includes`.) -/
def containsSub (hay sub : List Char) : Bool :=
  match hay with
  | [] => sub.isEmpty
  | _ :: t => sub.isPrefixOf hay || containsSub t sub

/-- JS `s.includes(sub)`. -/
def jsIncludes (s sub : String) : Bool := containsSub s.data sub.data

/-- `simplifyType` (lines 298-307), with the checks in source order. -/
def simplifyType (t : String) : String :=
  if jsIncludes t "character" || jsIncludes t "text" then "text"
  else if jsIncludes t "integer" then "integer"
  else if jsIncludes t "decimal" || jsIncludes t "numeric" then "decimal"
  else if jsIncludes t "date" then "date"
  else if jsIncludes t "timestamp" then "timestamp"
  else if jsIncludes t "time" then "time"
  else if jsIncludes t "boolean" then "boolean"
  else t

/-- `areTypesCompatible` (lines 282-296). -/
def areTypesCompatible (oldType newType : String) : Bool :=
  let oldSimple := simplifyType oldType
  let newSimple := simplifyType newType
  if newSimple = "text" then true
  else if oldSimple = newSimple then true
  else if oldSimple = "integer" ∧ newSimple = "decimal" then true
  else if oldSimple = "decimal" ∧ newSimple = "integer" then true
  else false

/-- The metadata columns skipped by the migration loop (lines 180-190). -/
def systemColumns : List String :=
  ["id", "user_id", "submitted_at", "template_version", "original_submission_id"]

/-- `breakingFields` (lines 167-169): the names of the breaking changes,
lower-cased with character replacement only. -/
def breakingFields (changes : List SchemaChange) : List String :=
  (changes.filter (fun c => c.breakingChange)).map
    (fun c => rawSanitize c.fieldName)

/-- Lookup in a JS object built by successive assignment: the last
binding for a key wins. -/
def lookupJs (m : List (String × String)) (k : String) : Option String :=
  m.reverse.lookup k

/-- One old-table column `(name, data_type)` survives the four checks of the
migration loop (lines 175-242): not a metadata column, not matched by a
breaking-change field name, present in the new table, and type-compatible
(the presence test is the JS falsy check, so an empty type also fails). -/
def isMigratable (changes : List SchemaChange)
    (newCols : List (String × String)) (col : String × String) : Bool :=
  !(systemColumns.contains col.1) &&
  !((breakingFields changes).any (fun bf => bf == jsToLowerStr col.1)) &&
  (match lookupJs newCols col.1 with
   | none => false
   | some t => !(t == "") && areTypesCompatible col.2 t)

/-- `migratableColumns`: names of the old-table columns the migration
query copies. -/
def migratableColumns (oldCols newCols : List (String × String))
    (changes : List SchemaChange) : List String :=
  (oldCols.filter (isMigratable changes newCols)).map (fun c => c.1)

/-- A row of an old submission table, as seen by the migration query;
`submitted_at` is an abstract timestamp (larger = more recent). -/
structure SubmissionRow where
  rid : Nat
  submitted_at : Nat
  deriving Repr, DecidableEq

/-- Insert into a list kept sorted by `submitted_at` descending. -/
def insertDesc (r : SubmissionRow) : List SubmissionRow → List SubmissionRow
  | [] => [r]
  | x :: xs =>
    if x.submitted_at < r.submitted_at then r :: x :: xs
    else x :: insertDesc r xs

/-- `ORDER BY submitted_at DESC`. -/
def sortDesc : List SubmissionRow → List SubmissionRow
  | [] => []
  | x :: xs => insertDesc x (sortDesc xs)

/-- `ORDER BY submitted_at DESC LIMIT 1000`: the rows the migration
query reads. -/
def migratedRows (rows : List SubmissionRow) : List SubmissionRow :=
  (sortDesc rows).take 1000

/-- The strict date pattern of the migration query, regex
`\d{4}-\d{2}-\d{2}` anchored at both ends. -/
def isStrictDate (s : String) : Bool :=
  match s.data with
  | [a, b, c, d, e, f, g, h, i, j] =>
    a.isDigit && b.isDigit && c.isDigit && d.isDigit &&
    e == '-' && f.isDigit && g.isDigit &&
    h == '-' && i.isDigit && j.isDigit
  | _ => false

/-- The `CASE WHEN col ~ pattern THEN TO_DATE(col) ELSE NULL END`
conversion applied when a text column is migrated into a date column;
`none` models SQL NULL, and a produced date is represented by the text
that named it. -/
def textToDateValue (v : Option String) : Option String :=
  match v with
  | none => none
  | some s => if isStrictDate s then some s else none



/-! ## Submission Router (checksheet.js lines 1020-1272) -/

/-- A Field Definition row as fetched for submission matching. -/
structure FieldDef where
  field_name : String
  instance_id : String
  field_type : String
  deriving Repr, DecidableEq

/-- An exactly represented decimal number: `mantissa * 10^(-scale)`;
`"10.5"` parses to mantissa 105, scale 1.  This models the numeric values
of form payloads exactly (the physical column type is DECIMAL(12,4)). -/
structure DecNum where
  mantissa : Int
  scale : Nat
  deriving Repr, DecidableEq

/-- Numeric value of a digit string. -/
def digitsVal (ds : List Char) : Nat :=
  ds.foldl (fun a c => a * 10 + (c.toNat - 48)) 0

/-- JS `parseFloat` on a submitted form string, modelled for decimal
literals: skip leading whitespace, optional sign, digits with an optional
fractional part; the longest such prefix is parsed, trailing characters are
ignored, and an unparseable string (JS NaN) is `none`.  (Exponent suffixes
and the Infinity literals are not modelled; no claim depends on them.) -/
def jsParseFloat (s : String) : Option DecNum :=
  let l := s.data.dropWhile (fun c => c.isWhitespace)
  let neg : Bool := match l with
    | '-' :: _ => true
    | _ => false
  let l2 := match l with
    | '-' :: r => r
    | '+' :: r => r
    | _ => l
  let intPart := l2.takeWhile (fun c => c.isDigit)
  let rest := l2.dropWhile (fun c => c.isDigit)
  let fracPart := match rest with
    | '.' :: r => r.takeWhile (fun c => c.isDigit)
    | _ => []
  if intPart.isEmpty && fracPart.isEmpty then none
  else
    let mag : Nat := digitsVal intPart * 10 ^ fracPart.length + digitsVal fracPart
    some ⟨if neg then -(mag : Int) else (mag : Int), fracPart.length⟩

/-- JS `String.prototype.trim` on the ASCII whitespace range. -/
def jsTrim (s : String) : String :=
  String.mk (((s.data.dropWhile Char.isWhitespace).reverse.dropWhile
    Char.isWhitespace).reverse)

/-- Coercion for number/calculation fields (lines 1174-1186).  A submitted
value is `none` (JS null/undefined) or a string; the stored cell is `none`
(SQL NULL) or a number.  `Number.isNaN(value)` is false for every string,
so for strings only the "" and "NaN" literals short-circuit. -/
def coerceNumber (v : Option String) : Option DecNum :=
  match v with
  | none => none
  | some s =>
    if s = "" ∨ s = "NaN" then none
    else jsParseFloat s

/-- Coercion for date/datetime/time fields (lines 1187-1189):
`(value || "").trim() === "" ? null : value`. -/
def coerceDateLike (v : Option String) : Option String :=
  match v with
  | none => none
  | some s => if jsTrim s = "" then none else some s

/-- A stored cell of the dynamic submission table. -/
inductive CellValue where
  | vnull
  | vnum (n : DecNum)
  | vstr (s : String)
  deriving Repr, DecidableEq

/-- Per-field coercion dispatch on the declared field type (lines
1164-1189); fields of any other (or unknown) type pass the value through. -/
def coerceByType (ftype : Option String) (v : Option String) : CellValue :=
  match ftype with
  | some t =>
    if t = "number" ∨ t = "calculation" then
      match coerceNumber v with
      | none => CellValue.vnull
      | some n => CellValue.vnum n
    else if t = "date" ∨ t = "datetime" ∨ t = "time" then
      match coerceDateLike v with
      | none => CellValue.vnull
      | some s => CellValue.vstr s
    else
      match v with
      | none => CellValue.vnull
      | some s => CellValue.vstr s
  | none =>
    match v with
    | none => CellValue.vnull
    | some s => CellValue.vstr s

/-- `columnMap` (lines 1102-1105): lowercase column name → actual column
name, later columns overwriting earlier ones as in a JS object. -/
def columnMap (cols : List String) (k : String) : Option String :=
  lookupJs (cols.map (fun c => (jsToLowerStr c, c))) k

/-- `fieldMapping` (lines 1107-1129): for each field, bindings under the
original and lower-cased field name and instance id; only the stored
`lower` component is consumed by the matcher, so the value kept here is
that lower-cased form. -/
def fieldMappingEntries (fields : List FieldDef) : List (String × String) :=
  fields.flatMap (fun f =>
    [(f.field_name, jsToLowerStr f.field_name),
     (f.instance_id, jsToLowerStr f.instance_id),
     (jsToLowerStr f.field_name, jsToLowerStr f.field_name),
     (jsToLowerStr f.instance_id, jsToLowerStr f.instance_id)])

/-- Matching of one submitted key (lines 1140-1159): first a direct
case-insensitive column match, else resolution through `fieldMapping`
(original key first, then lower-cased key) followed by a column lookup. -/
def matchKey (cols : List String) (fields : List FieldDef) (k : String) :
    Option String :=
  match columnMap cols (jsToLowerStr k) with
  | some c => some c
  | none =>
    match
      (lookupJs (fieldMappingEntries fields) k).orElse
        (fun _ => lookupJs (fieldMappingEntries fields) (jsToLowerStr k)) with
    | some lower => columnMap cols lower
    | none => none

/-- The field-type lookup used for value coercion (lines 1165-1169). -/
def matchedFieldType (fields : List FieldDef) (k : String) : Option String :=
  (fields.find? (fun f =>
    jsToLowerStr f.field_name == jsToLowerStr k ||
    jsToLowerStr f.instance_id == jsToLowerStr k)).map (fun f => f.field_type)

/-- The matched and coerced data columns, in submission order; unmatched
keys are dropped (lines 1140-1200). -/
def matchedColumns (cols : List String) (fields : List FieldDef)
    (data : List (String × Option String)) : List (String × CellValue) :=
  data.filterMap (fun kv =>
    match matchKey cols fields kv.1 with
    | some c => some (c, coerceByType (matchedFieldType fields kv.1) kv.2)
    | none => none)

/-- Outcome of POST /submissions. -/
inductive SubmitOutcome where
  | badRequest
  | inserted (row : List (String × CellValue))
  deriving Repr, DecidableEq

/-- POST /submissions after template resolution (lines 1131-1243):
`columnsToInsert` starts as user_id and template_version, each matched key
appends a column, and `columnsToInsert.length <= 2` yields the 400 error. -/
def postSubmission (cols : List String) (fields : List FieldDef)
    (userId version : Nat) (data : List (String × Option String)) :
    SubmitOutcome :=
  let matched := matchedColumns cols fields data
  if 2 + matched.length ≤ 2 then SubmitOutcome.badRequest
  else SubmitOutcome.inserted
    ([("user_id", CellValue.vnum ⟨userId, 0⟩),
      ("template_version", CellValue.vnum ⟨version, 0⟩)] ++ matched)

/-- The same request at the level of the stored table: a 400 rolls the
transaction back and leaves the rows unchanged; success appends one row. -/
def submitToTable (cols : List String) (fields : List FieldDef)
    (userId version : Nat) (data : List (String × Option String))
    (rows : List (List (String × CellValue))) :
    SubmitOutcome × List (List (String × CellValue)) :=
  match postSubmission cols fields userId version data with
  | SubmitOutcome.badRequest => (SubmitOutcome.badRequest, rows)
  | SubmitOutcome.inserted row => (SubmitOutcome.inserted row, rows ++ [row])



/-! ## Template Store state machine: publish, update, delete
(checksheet.js lines 312-629, 1277-1369, 2206-2630)

State is the four stores the routes touch: the `checksheet_templates`
table, the `template_fields` table, the `template_images` table, and the
set of physical submission tables. -/

/-- A row of `checksheet_templates`, with the columns the routes read or
write.  The `field_configurations` JSON text is represented by the decoded
list it serialises. -/
structure TemplateRow where
  tid : Nat
  name : String
  html_content : String
  field_configurations : Option (List FieldConfig)
  field_positions : Option String
  sheets : Option String
  css_content : String
  original_html_content : String
  access_control : Option String
  table_name : Option String
  version : Nat
  parent : Option Nat
  active : Bool
  created_at : Nat
  updated_at : Nat
  archived_at : Option Nat
  deriving Repr, DecidableEq

/-- A row of `template_fields` (the columns the claims depend on). -/
structure FieldRow where
  templateId : Nat
  field_name : String
  field_type : String
  instance_id : String
  deriving Repr, DecidableEq

/-- A row of `template_images` (the columns the claims depend on). -/
structure ImageRow where
  templateId : Nat
  filename : String
  deriving Repr, DecidableEq

/-- The database state the checksheet routes manipulate. -/
structure DBState where
  templates : List TemplateRow
  fields : List FieldRow
  images : List ImageRow
  tables : List String
  deriving Repr, DecidableEq

/-- `checksheet_<rootId>_<version>`. -/
def tableNameFor (rootId version : Nat) : String :=
  "checksheet_" ++ toString rootId ++ "_" ++ toString version

/-- The `template_fields` row inserted for one configuration entry:
`field_name = config.field_name || fieldId`, `field_type = config.type ||
"text"` (the entry key and `config.instanceId` coincide in this embedding,
as they do in the payloads the front end produces). -/
def mkFieldRow (templateId : Nat) (c : FieldConfig) : FieldRow :=
  ⟨templateId, effName c, if c.type = "" then "text" else c.type,
    c.instanceId⟩

/-- The body of POST /templates and PUT /templates/:id, after defaulting. -/
structure TemplateReq where
  name : String
  html_content : String
  field_configurations : Option (List FieldConfig)
  field_positions : Option String
  sheets : Option String
  css_content : String
  original_html_content : String
  access_control : Option String
  deriving Repr, DecidableEq

/-- POST /templates (lines 312-629): insert the row with version 1 and
active = true, insert one field row per configuration, create the
`checksheet_<id>_1` table and store its name.  A missing
`field_configurations` makes `Object.values(undefined)` throw inside
`createOptimizedTable`, so the transaction rolls back (`none`). -/
def publish (newId now : Nat) (req : TemplateReq) (st : DBState) :
    Option DBState :=
  match req.field_configurations with
  | none => none
  | some cfgs =>
    some
      { templates := st.templates ++
          [{ tid := newId, name := req.name,
             html_content := req.html_content,
             field_configurations := some cfgs,
             field_positions := req.field_positions, sheets := req.sheets,
             css_content := req.css_content,
             original_html_content := req.original_html_content,
             access_control := req.access_control,
             table_name := some (tableNameFor newId 1),
             version := 1, parent := none, active := true,
             created_at := now, updated_at := now, archived_at := none }],
        fields := st.fields ++ cfgs.map (mkFieldRow newId),
        images := st.images,
        tables := st.tables ++ [tableNameFor newId 1] }

/-- The lineage query `parent_template_id = $1 OR id = $1`. -/
def lineage (p : Nat) (ts : List TemplateRow) : List TemplateRow :=
  ts.filter (fun r => r.parent == some p || r.tid == p)

/-- `SELECT COALESCE(MAX(version), 0) ... WHERE parent_template_id = $1 OR
id = $1` (lines 2282-2287). -/
def maxVersionInLineage (p : Nat) (ts : List TemplateRow) : Nat :=
  ((lineage p ts).map (fun r => r.version)).foldl max 0

/-- The archival UPDATE applied to the addressed row (lines 2292-2300). -/
def archiveRow (id now : Nat) (r : TemplateRow) : TemplateRow :=
  if r.tid == id then
    { r with active := false, archived_at := some now, updated_at := now }
  else r

/-- The new version row inserted on a breaking update (lines 2302-2330). -/
def forkRow (newId p newVersion now : Nat) (req : TemplateReq) :
    TemplateRow :=
  { tid := newId, name := req.name, html_content := req.html_content,
    field_configurations := req.field_configurations,
    field_positions := req.field_positions, sheets := req.sheets,
    css_content := req.css_content,
    original_html_content := req.original_html_content,
    access_control := req.access_control,
    table_name := some (tableNameFor p newVersion),
    version := newVersion, parent := some p, active := true,
    created_at := now, updated_at := now, archived_at := none }

/-- PUT /templates/:id, breaking branch (lines 2275-2490): 404 when the id
does not exist; otherwise the lineage root is `original_template_id || id`
(from the request body), the new version is max + 1, the addressed row is
archived, one new row is inserted, the new table is created when
configurations are present, old field and image rows are copied to the new
template, and the fields are replaced when new configurations are given. -/
def updateBreaking (id : Nat) (origId : Option Nat) (newId now : Nat)
    (req : TemplateReq) (st : DBState) : Option DBState :=
  if (st.templates.filter (fun r => r.tid == id)).isEmpty then none
  else
    let p := origId.getD id
    let newVersion := maxVersionInLineage p st.templates + 1
    let copiedFields :=
      (st.fields.filter (fun f => f.templateId == id)).map
        (fun f => { f with templateId := newId })
    let newFields :=
      match req.field_configurations with
      | some cfgs => if cfgs.isEmpty then copiedFields
          else cfgs.map (mkFieldRow newId)
      | none => copiedFields
    some
      { templates := st.templates.map (archiveRow id now) ++
          [forkRow newId p newVersion now req],
        fields := st.fields ++ newFields,
        images := st.images ++
          (st.images.filter (fun i => i.templateId == id)).map
            (fun i => { i with templateId := newId }),
        tables :=
          match req.field_configurations with
          | some _ => st.tables ++ [tableNameFor p newVersion]
          | none => st.tables }

/-- The in-place UPDATE of one template row (lines 2496-2523): only name,
markup, configuration JSON, positions, sheets, css, access control and
updated_at are written. -/
def applyInPlaceUpdate (id now : Nat) (req : TemplateReq)
    (r : TemplateRow) : TemplateRow :=
  if r.tid == id then
    { r with
      name := req.name
      html_content := req.html_content
      field_configurations := req.field_configurations
      field_positions := req.field_positions
      sheets := req.sheets
      css_content := req.css_content
      original_html_content := req.original_html_content
      access_control := req.access_control
      updated_at := now }
  else r

/-- PUT /templates/:id, non-breaking branch (lines 2491-2618): 404 when
the id does not exist; otherwise update the row in place, delete every
field row of the template, and reinsert the supplied set when it is
non-empty. -/
def updateInPlace (id now : Nat) (req : TemplateReq) (st : DBState) :
    Option DBState :=
  if (st.templates.filter (fun r => r.tid == id)).isEmpty then none
  else
    some
      { templates := st.templates.map (applyInPlaceUpdate id now req),
        fields := st.fields.filter (fun f => !(f.templateId == id)) ++
          (match req.field_configurations with
           | some cfgs => cfgs.map (mkFieldRow id)
           | none => []),
        images := st.images,
        tables := st.tables }

/-- DELETE /templates/:id (lines 1277-1369): 404 when the id does not
exist; otherwise the rows with `id = $1 OR parent_template_id = $1` are
collected, their physical tables dropped, and their image rows, field rows
and template rows deleted. -/
def deleteTemplate (id : Nat) (st : DBState) : Option DBState :=
  if (st.templates.filter (fun r => r.tid == id)).isEmpty then none
  else
    let members := st.templates.filter
      (fun r => r.tid == id || r.parent == some id)
    let memberIds := members.map (fun r => r.tid)
    let memberTables := members.filterMap (fun r => r.table_name)
    some
      { templates := st.templates.filter
          (fun r => !(r.tid == id || r.parent == some id)),
        fields := st.fields.filter
          (fun f => !(memberIds.contains f.templateId)),
        images := st.images.filter
          (fun i => !(memberIds.contains i.templateId)),
        tables := st.tables.filter
          (fun t => !(memberTables.contains t)) }

/-- Number of active rows in a lineage. -/
def activeCount (p : Nat) (ts : List TemplateRow) : Nat :=
  (lineage p ts).countP (fun r => r.active)

/-- The versions present in a lineage. -/
def lineageVersions (p : Nat) (ts : List TemplateRow) : List Nat :=
  (lineage p ts).map (fun r => r.version)

/-- The invariant claimed for a lineage: exactly one active row, and the
versions are exactly 1, 2, ..., n for n the lineage size. -/
def VersionInvariant (p : Nat) (ts : List TemplateRow) : Prop :=
  activeCount p ts = 1 ∧
  (lineageVersions p ts).Perm (List.range' 1 (lineage p ts).length)



/-- What claim C10 asserts of one successful in-place update: the
versioning columns of every row are untouched (only the content columns
and `updated_at` of the addressed row change), the field rows of the
template are replaced by the supplied set (none when it is empty or
missing), other templates rows are untouched, and images and tables are
untouched. -/
def InPlaceUpdateSpec (st : DBState) (id now : Nat) (req : TemplateReq)
    (st' : DBState) : Prop :=
  (∀ r ∈ st.templates, applyInPlaceUpdate id now req r ∈ st'.templates ∧
    (applyInPlaceUpdate id now req r).version = r.version ∧
    (applyInPlaceUpdate id now req r).table_name = r.table_name ∧
    (applyInPlaceUpdate id now req r).parent = r.parent ∧
    (applyInPlaceUpdate id now req r).active = r.active ∧
    (applyInPlaceUpdate id now req r).created_at = r.created_at ∧
    (applyInPlaceUpdate id now req r).archived_at = r.archived_at ∧
    (r.tid ≠ id → applyInPlaceUpdate id now req r = r) ∧
    (r.tid = id → (applyInPlaceUpdate id now req r).name = req.name ∧
      (applyInPlaceUpdate id now req r).updated_at = now)) ∧
  st'.fields.filter (fun f => f.templateId == id) =
    (match req.field_configurations with
     | some cfgs => cfgs.map (mkFieldRow id)
     | none => []) ∧
  ((req.field_configurations = none ∨ req.field_configurations = some []) →
    ∀ f ∈ st'.fields, f.templateId ≠ id) ∧
  st'.fields.filter (fun f => !(f.templateId == id)) =
    st.fields.filter (fun f => !(f.templateId == id)) ∧
  st'.images = st.images ∧ st'.tables = st.tables

/-- What the amended claim C2 asserts of one successful breaking update
addressed to the active member of lineage `p`: the lineage invariant is
preserved, the lineage grows by exactly one row, the addressed row is
archived, and the inserted row carries version max+1, active = true, and
the table name derived from the root and the new version. -/
def BreakingUpdateSpec (st : DBState) (id p newId now : Nat)
    (req : TemplateReq) (st' : DBState) : Prop :=
  VersionInvariant p st'.templates ∧
  (lineage p st'.templates).length = (lineage p st.templates).length + 1 ∧
  st'.templates = st.templates.map (archiveRow id now) ++
    [forkRow newId p (maxVersionInLineage p st.templates + 1) now req] ∧
  maxVersionInLineage p st.templates = (lineage p st.templates).length ∧
  (forkRow newId p (maxVersionInLineage p st.templates + 1) now req).active
      = true ∧
  (forkRow newId p (maxVersionInLineage p st.templates + 1) now req).version
      = maxVersionInLineage p st.templates + 1 ∧
  (forkRow newId p (maxVersionInLineage p st.templates + 1) now
      req).table_name
    = some (tableNameFor p (maxVersionInLineage p st.templates + 1))

/-- What the amended claim C4 asserts of one successful delete: exactly
the template rows whose id is the addressed id, or whose parent is the
addressed id, disappear, together with their field rows, image rows and
physical tables; everything else survives. -/
def DeleteSpec (st : DBState) (id : Nat) (st' : DBState) : Prop :=
  (∀ r ∈ st'.templates, r.tid ≠ id ∧ r.parent ≠ some id) ∧
  (∀ r ∈ st.templates, r.tid ≠ id → r.parent ≠ some id →
    r ∈ st'.templates) ∧
  (∀ f ∈ st'.fields, ∀ r ∈ st.templates,
    (r.tid = id ∨ r.parent = some id) → f.templateId ≠ r.tid) ∧
  (∀ i ∈ st'.images, ∀ r ∈ st.templates,
    (r.tid = id ∨ r.parent = some id) → i.templateId ≠ r.tid) ∧
  (∀ r ∈ st.templates, (r.tid = id ∨ r.parent = some id) →
    ∀ tn, r.table_name = some tn → tn ∉ st'.tables) ∧
  (∀ f ∈ st.fields,
    (∀ r ∈ st.templates, (r.tid = id ∨ r.parent = some id) →
      f.templateId ≠ r.tid) → f ∈ st'.fields)

/-! Concrete states for the claim instances. -/

/-- The empty database. -/
def emptyDB : DBState := ⟨[], [], [], []⟩

/-- A publish body with one numeric field. -/
def reqA : TemplateReq :=
  { name := "form", html_content := "",
    field_configurations := some [⟨"f1", some "amount", "number"⟩],
    field_positions := none, sheets := none, css_content := "",
    original_html_content := "", access_control := none }

/-- The same body after changing the field type to text: number→text is
in the breaking table, so updates carrying this body against a template
whose stored `amount` field has type number take the breaking branch. -/
def reqB : TemplateReq :=
  { reqA with field_configurations := some [⟨"f1", some "amount", "text"⟩] }

/-- An update body with no field_configurations at all. -/
def reqC : TemplateReq := { reqA with field_configurations := none }

/-- The database right after `publish 1` on the empty state. -/
def exSt2 : DBState := (publish 1 0 reqA emptyDB).getD emptyDB

/-- A template row of a three-version lineage rooted at id 1. -/
def row1 : TemplateRow :=
  { tid := 1, name := "f", html_content := "",
    field_configurations := none, field_positions := none, sheets := none,
    css_content := "", original_html_content := "", access_control := none,
    table_name := some "checksheet_1_1", version := 1, parent := none,
    active := false, created_at := 0, updated_at := 0,
    archived_at := some 1 }

/-- Second version of the lineage. -/
def row2 : TemplateRow :=
  { row1 with
    tid := 2
    table_name := some "checksheet_1_2"
    version := 2
    parent := some 1
    archived_at := some 2 }

/-- Third, active version of the lineage. -/
def row3 : TemplateRow :=
  { row1 with
    tid := 3
    table_name := some "checksheet_1_3"
    version := 3
    parent := some 1
    active := true
    archived_at := none }

/-- A three-version lineage with fields, images and tables for each
member. -/
def exSt4 : DBState :=
  { templates := [row1, row2, row3],
    fields := [⟨1, "amount", "number", "f1"⟩, ⟨2, "amount", "number", "f1"⟩,
      ⟨3, "amount", "number", "f1"⟩],
    images := [⟨1, "logo.png"⟩, ⟨2, "logo.png"⟩, ⟨3, "logo.png"⟩],
    tables := ["checksheet_1_1", "checksheet_1_2", "checksheet_1_3"] }



instance : RightCommutative (max : Nat → Nat → Nat) :=
  ⟨fun b a₁ a₂ => Nat.max_right_comm b a₁ a₂⟩

instance (p : Nat) (ts : List TemplateRow) :
    Decidable (VersionInvariant p ts) := by
  unfold VersionInvariant
  infer_instance

end Checksheet

open Checksheet

theorem jsToLower_of_allowed (c : Char) (h : isAllowed c = true) :
    jsToLower c = c := by
  unfold isAllowed at h
  simp only [Bool.or_eq_true, Bool.and_eq_true, decide_eq_true_eq,
    beq_iff_eq] at h
  unfold jsToLower
  rw [if_neg (by omega)]

theorem replaceDisallowed_of_allowed (c : Char) (h : isAllowed c = true) :
    replaceDisallowed c = c := by
  unfold replaceDisallowed
  rw [if_pos h]

theorem isAllowed_replaceDisallowed (c : Char) :
    isAllowed (replaceDisallowed c) = true := by
  unfold replaceDisallowed
  by_cases h : isAllowed c = true
  · rw [if_pos h]; exact h
  · rw [if_neg (by simpa using h)]; decide

theorem isAllowed_underscore : isAllowed '_' = true := by decide

theorem head?_dropWhile_ne (p : Char → Bool) (l : List Char) (a : Char)
    (h : (l.dropWhile p).head? = some a) : p a = false := by
  induction l with
  | nil => simp [List.dropWhile] at h
  | cons b t ih =>
    rw [List.dropWhile_cons] at h
    by_cases hb : p b = true
    · rw [if_pos hb] at h; exact ih h
    · rw [if_neg (by simpa using hb)] at h
      simp only [List.head?_cons, Option.some.injEq] at h
      rw [← h]
      simpa using hb

theorem dropWhile_eq_self_of_head (p : Char → Bool) (l : List Char)
    (h : ∀ a, l.head? = some a → p a = false) : l.dropWhile p = l := by
  cases l with
  | nil => rfl
  | cons b t =>
    have hb := h b rfl
    rw [List.dropWhile_cons, if_neg (by simp [hb])]

theorem mem_collapseAux (b : Bool) (l : List Char) (c : Char)
    (h : c ∈ collapseAux b l) : c ∈ l := by
  induction l generalizing b with
  | nil => simp [collapseAux] at h
  | cons d cs ih =>
    rw [collapseAux] at h
    by_cases hd : d = '_'
    · rw [if_pos hd] at h
      cases b with
      | true =>
        rw [cond_true] at h
        exact List.mem_cons_of_mem _ (ih _ h)
      | false =>
        rw [cond_false] at h
        rcases List.mem_cons.mp h with h1 | h1
        · rw [h1, ← hd]; exact List.mem_cons_self _ _
        · exact List.mem_cons_of_mem _ (ih _ h1)
    · rw [if_neg hd] at h
      rcases List.mem_cons.mp h with h1 | h1
      · rw [h1]; exact List.mem_cons_self _ _
      · exact List.mem_cons_of_mem _ (ih _ h1)

theorem head?_collapseAux_true_ne (l : List Char) (a : Char)
    (h : (collapseAux true l).head? = some a) : a ≠ '_' := by
  induction l with
  | nil => simp [collapseAux] at h
  | cons d cs ih =>
    rw [collapseAux] at h
    by_cases hd : d = '_'
    · rw [if_pos hd, cond_true] at h
      exact ih h
    · rw [if_neg hd] at h
      simp only [List.head?_cons, Option.some.injEq] at h
      rw [← h]; exact hd

theorem noDouble_collapseAux (l : List Char) (b : Bool) :
    NoDouble (collapseAux b l) := by
  induction l generalizing b with
  | nil => rw [NoDouble, collapseAux]; simp
  | cons d cs ih =>
    rw [collapseAux]
    by_cases hd : d = '_'
    · rw [if_pos hd]
      cases b with
      | true => rw [cond_true]; exact ih true
      | false =>
        rw [cond_false, NoDouble, List.chain'_cons']
        refine ⟨?_, ih true⟩
        intro y hy hcon
        exact head?_collapseAux_true_ne _ _ hy hcon.2
    · rw [if_neg hd]
      rw [NoDouble, List.chain'_cons']
      exact ⟨fun y _ hcon => hd hcon.1, ih false⟩

theorem collapseAux_eq_self (l : List Char) (b : Bool) (h : NoDouble l)
    (hb : b = true → ∀ a, l.head? = some a → a ≠ '_') :
    collapseAux b l = l := by
  induction l generalizing b with
  | nil => rw [collapseAux]
  | cons d cs ih =>
    rw [NoDouble, List.chain'_cons'] at h
    rw [collapseAux]
    by_cases hd : d = '_'
    · cases b with
      | true => exact absurd hd (hb rfl d rfl)
      | false =>
        rw [if_pos hd, cond_false, ← hd]
        have htail : collapseAux true cs = cs := by
          apply ih true h.2
          intro _ a ha hcon
          exact h.1 a ha ⟨hd, hcon⟩
        rw [htail]
    · rw [if_neg hd]
      rw [ih false h.2 (fun hc => absurd hc (by decide))]

theorem noDouble_collapseRuns (l : List Char) : NoDouble (collapseRuns l) :=
  noDouble_collapseAux l false

theorem collapseRuns_eq_self (l : List Char) (h : NoDouble l) :
    collapseRuns l = l :=
  collapseAux_eq_self l false h (fun hc => absurd hc (by decide))

theorem trimUnders_eq_self (l : List Char)
    (h1 : ∀ a, l.head? = some a → a ≠ '_')
    (h2 : ∀ a, l.getLast? = some a → a ≠ '_') : trimUnders l = l := by
  have e1 : l.dropWhile (· == '_') = l :=
    dropWhile_eq_self_of_head _ _ (fun a ha => by simpa using h1 a ha)
  have e2 : l.reverse.dropWhile (· == '_') = l.reverse :=
    dropWhile_eq_self_of_head _ _ (fun a ha => by
      rw [List.head?_reverse] at ha
      simpa using h2 a ha)
  rw [trimUnders, e1, e2]
  exact List.reverse_reverse l

theorem mem_trimUnders (l : List Char) (c : Char)
    (h : c ∈ trimUnders l) : c ∈ l := by
  unfold trimUnders at h
  rw [List.mem_reverse] at h
  have h2 := (List.dropWhile_sublist _).subset h
  rw [List.mem_reverse] at h2
  exact (List.dropWhile_sublist _).subset h2

theorem trimUnders_prefix_dropWhile (l : List Char) :
    trimUnders l <+: l.dropWhile (· == '_') := by
  unfold trimUnders
  rcases List.dropWhile_suffix (l := (l.dropWhile (· == '_')).reverse)
    (· == '_') with ⟨r, hr⟩
  refine ⟨r.reverse, ?_⟩
  have := congrArg List.reverse hr
  rw [List.reverse_append, List.reverse_reverse] at this
  exact this

theorem trimUnders_within (l : List Char) : trimUnders l <:+: l :=
  (trimUnders_prefix_dropWhile l).isInfix.trans
    (List.dropWhile_suffix _).isInfix

theorem head?_trimUnders_ne (l : List Char) (a : Char)
    (h : (trimUnders l).head? = some a) : a ≠ '_' := by
  rcases trimUnders_prefix_dropWhile l with ⟨r, hr⟩
  cases ht : trimUnders l with
  | nil => rw [ht] at h; simp at h
  | cons x xs =>
    rw [ht] at h
    simp only [List.head?_cons, Option.some.injEq] at h
    rw [ht] at hr
    have hhead : (l.dropWhile (· == '_')).head? = some x := by
      rw [← hr]; rfl
    have := head?_dropWhile_ne _ _ _ hhead
    rw [← h]
    simpa using this

theorem getLast?_trimUnders_ne (l : List Char) (a : Char)
    (h : (trimUnders l).getLast? = some a) : a ≠ '_' := by
  unfold trimUnders at h
  rw [List.getLast?_reverse] at h
  have := head?_dropWhile_ne _ _ _ h
  simpa using this

theorem allowed_sanitizeChars (l : List Char) (c : Char)
    (h : c ∈ sanitizeChars l) : isAllowed c = true := by
  unfold sanitizeChars collapseRuns at h
  have h1 := mem_trimUnders _ _ h
  have h2 := mem_collapseAux _ _ _ h1
  rcases List.mem_map.mp h2 with ⟨x, _, hx⟩
  rw [← hx]
  exact isAllowed_replaceDisallowed x

theorem noDouble_sanitizeChars (l : List Char) :
    NoDouble (sanitizeChars l) :=
  List.Chain'.infix (noDouble_collapseRuns _) (trimUnders_within _)

theorem sanitizeChars_eq_self (l : List Char) :
    sanitizeChars (sanitizeChars l) = sanitizeChars l := by
  have hall := allowed_sanitizeChars l
  have hmap1 : (sanitizeChars l).map jsToLower = sanitizeChars l := by
    rw [List.map_congr_left (fun a ha => jsToLower_of_allowed a (hall a ha))]
    exact List.map_id _
  have hmap2 : (sanitizeChars l).map replaceDisallowed = sanitizeChars l := by
    rw [List.map_congr_left
      (fun a ha => replaceDisallowed_of_allowed a (hall a ha))]
    exact List.map_id _
  have expand : sanitizeChars (sanitizeChars l) =
      trimUnders (collapseRuns (((sanitizeChars l).map jsToLower).map
        replaceDisallowed)) := rfl
  rw [expand, hmap1, hmap2, collapseRuns_eq_self _ (noDouble_sanitizeChars l)]
  have hh : ∀ a, (sanitizeChars l).head? = some a → a ≠ '_' := by
    intro a ha
    exact head?_trimUnders_ne _ a ha
  have hl : ∀ a, (sanitizeChars l).getLast? = some a → a ≠ '_' := by
    intro a ha
    exact getLast?_trimUnders_ne _ a ha
  exact trimUnders_eq_self _ hh hl


/-- Claim C1 counterexample: the claim describes the incompatibility table as
containing each listed pair AND its reverse, but the table in the code is
asymmetric: `text → time` and `calculation → text` are breaking while their
reverses `time → text` and `text → calculation` are not. -/
theorem C1_counterexample :
    isBreakingChange "text" "time" = true ∧
    isBreakingChange "time" "text" = false ∧
    isBreakingChange "calculation" "text" = true ∧
    isBreakingChange "text" "calculation" = false := by
  decide

/-- Claim C1 (amended): `isBreakingChange(oldType, newType)` is true iff the
pair `(oldType, newType)` occurs in the literal, asymmetric 13-entry table
`breakingPairs`; compatible pairs such as number↔calculation are never
breaking, and `isBreakingChange("number","text") = true`. -/
theorem C1_breaking_iff_in_table (oldType newType : String) :
    (isBreakingChange oldType newType = true ↔
      (oldType, newType) ∈ breakingPairs) ∧
    isBreakingChange "number" "text" = true ∧
    isBreakingChange "number" "calculation" = false ∧
    isBreakingChange "calculation" "number" = false := by
  refine ⟨?_, by decide, by decide, by decide⟩
  constructor
  · intro h
    rcases List.any_eq_true.mp h with ⟨p, hp, hpq⟩
    rcases p with ⟨a, b⟩
    simp only [Bool.and_eq_true, beq_iff_eq] at hpq
    rw [← hpq.1, ← hpq.2]
    exact hp
  · intro h
    exact List.any_eq_true.mpr ⟨(oldType, newType), h, by simp⟩

/-- Claim C5: the column-name sanitiser is idempotent, and its output
contains only characters in `[a-z0-9_]`, with no leading underscore, no
trailing underscore, and no two consecutive underscores. -/
theorem C5_sanitize_idempotent_and_shape (s : String) :
    sanitize (sanitize s) = sanitize s ∧
    (∀ c ∈ (sanitize s).data, isAllowed c = true) ∧
    (∀ a, (sanitize s).data.head? = some a → a ≠ '_') ∧
    (∀ a, (sanitize s).data.getLast? = some a → a ≠ '_') ∧
    NoDouble (sanitize s).data := by
  refine ⟨?_, ?_, ?_, ?_, ?_⟩
  · show String.mk (sanitizeChars (sanitizeChars s.data)) = _
    rw [sanitizeChars_eq_self]
    rfl
  · exact fun c hc => allowed_sanitizeChars s.data c hc
  · exact fun a ha => head?_trimUnders_ne _ a ha
  · exact fun a ha => getLast?_trimUnders_ne _ a ha
  · exact noDouble_sanitizeChars s.data

/-- Claim C6 counterexample: a field whose name sanitises to the empty
string is not omitted from the generated table: `createOptimizedTable`
still emits a column for it, with a zero-length identifier. -/
theorem C6_counterexample :
    tableColumns [⟨"f1", some "!!!", "text"⟩] =
      metadataColumns ++ [⟨"", "TEXT"⟩] ∧
    ColumnDef.mk "" "TEXT" ∈ tableColumns [⟨"f1", some "!!!", "text"⟩] := by
  decide

/-- Claim C6 (amended): no field configuration is ever omitted from the
generated column list — each contributes exactly one column — and a field
whose name sanitises to the empty string contributes a column whose quoted
identifier is zero-length, which is invalid PostgreSQL, so the publish
transaction fails instead of succeeding with the field silently dropped. -/
theorem C6_empty_name_not_omitted (cfgs : List FieldConfig) (c : FieldConfig)
    (h : c ∈ cfgs) :
    fieldColumn c ∈ tableColumns cfgs ∧
    (sanitize (effName c) = "" → fieldColumn c = ⟨"", columnTypeOf c.type⟩) ∧
    (tableColumns cfgs).length = 5 + cfgs.length := by
  refine ⟨?_, ?_, ?_⟩
  · exact List.mem_append_right _ (List.mem_map_of_mem _ h)
  · intro he
    rw [fieldColumn, he]
  · simp only [tableColumns, List.length_append, List.length_map]
    rfl

/-- Witness for C6 (amended) at a concrete field configuration. -/
theorem C6_empty_name_not_omitted_witness :
    (FieldConfig.mk "f1" (some "!!!") "text") ∈
      [FieldConfig.mk "f1" (some "!!!") "text"] ∧
    (fieldColumn (FieldConfig.mk "f1" (some "!!!") "text") ∈
        tableColumns [FieldConfig.mk "f1" (some "!!!") "text"] ∧
      (sanitize (effName (FieldConfig.mk "f1" (some "!!!") "text")) = "" →
        fieldColumn (FieldConfig.mk "f1" (some "!!!") "text") =
          ⟨"", columnTypeOf (FieldConfig.mk "f1" (some "!!!") "text").type⟩) ∧
      (tableColumns [FieldConfig.mk "f1" (some "!!!") "text"]).length = 5 + 1) :=
  ⟨by decide, C6_empty_name_not_omitted _ _ (by decide)⟩

/-- Claim C3 counterexample: the field named "qty " (trailing space) with a
breaking boolean→text change is not excluded from the migrated column set:
the exclusion list holds the partially sanitised name "qty_" while the
physical column is "qty", so the column is still copied. -/
theorem C3_counterexample :
    isBreakingChange "boolean" "text" = true ∧
    rawSanitize "qty " = "qty_" ∧
    sanitize "qty " = "qty" ∧
    migratableColumns [("qty", "boolean")] [("qty", "text")]
      [⟨"qty ", "boolean", "text", true⟩] = ["qty"] := by
  decide

/-- Claim C3 (amended): a field recorded as a breaking change is excluded
from the migrated column set — for every type pair — exactly when its
partially sanitised name (lower-casing and character replacement, without
underscore collapsing or trimming) coincides with the lower-cased physical
column name; names needing collapsing or trimming escape the exclusion. -/
theorem C3_breaking_excluded (changes : List SchemaChange)
    (newCols oldCols : List (String × String))
    (col : String × String) (c : SchemaChange)
    (hc : c ∈ changes) (hb : c.breakingChange = true)
    (hn : rawSanitize c.fieldName = jsToLowerStr col.1) :
    isMigratable changes newCols col = false ∧
    ∀ x ∈ oldCols.filter (isMigratable changes newCols), x ≠ col := by
  have hmem : rawSanitize c.fieldName ∈ breakingFields changes := by
    rw [breakingFields]
    exact List.mem_map_of_mem _ (List.mem_filter.mpr ⟨hc, hb⟩)
  have hany :
      ((breakingFields changes).any (fun bf => bf == jsToLowerStr col.1))
        = true :=
    List.any_eq_true.mpr ⟨_, hmem, by rw [hn]; exact beq_self_eq_true _⟩
  have hfalse : isMigratable changes newCols col = false := by
    unfold isMigratable
    rw [hany]
    simp
  refine ⟨hfalse, ?_⟩
  intro x hx heq
  have := (List.mem_filter.mp hx).2
  rw [heq, hfalse] at this
  cases this

/-- Witness for C3 (amended): a breaking field whose name is already in
canonical form is excluded. -/
theorem C3_breaking_excluded_witness :
    ((⟨"qty", "boolean", "text", true⟩ : SchemaChange) ∈
        [(⟨"qty", "boolean", "text", true⟩ : SchemaChange)] ∧
      (SchemaChange.mk "qty" "boolean" "text" true).breakingChange = true ∧
      rawSanitize "qty" = jsToLowerStr "qty") ∧
    (isMigratable [⟨"qty", "boolean", "text", true⟩] [("qty", "text")]
        ("qty", "boolean") = false ∧
      ∀ x ∈ [("qty", "boolean")].filter
          (isMigratable [⟨"qty", "boolean", "text", true⟩] [("qty", "text")]),
        x ≠ ("qty", "boolean")) :=
  ⟨⟨by decide, by decide, by decide⟩,
    C3_breaking_excluded [⟨"qty", "boolean", "text", true⟩] [("qty", "text")]
      [("qty", "boolean")] ("qty", "boolean")
      (SchemaChange.mk "qty" "boolean" "text" true) (by decide) (by decide)
      (by decide)⟩

theorem perm_insertDesc (r : SubmissionRow) (l : List SubmissionRow) :
    (insertDesc r l).Perm (r :: l) := by
  induction l with
  | nil => exact List.Perm.refl _
  | cons x xs ih =>
    rw [insertDesc]
    by_cases h : x.submitted_at < r.submitted_at
    · rw [if_pos h]
    · rw [if_neg h]
      exact List.Perm.trans (ih.cons x) (List.Perm.swap r x xs)

theorem perm_sortDesc (l : List SubmissionRow) : (sortDesc l).Perm l := by
  induction l with
  | nil => exact List.Perm.refl _
  | cons x xs ih =>
    rw [sortDesc]
    exact List.Perm.trans (perm_insertDesc x (sortDesc xs)) (ih.cons x)

theorem sorted_insertDesc (r : SubmissionRow) (l : List SubmissionRow)
    (h : l.Pairwise (fun a b => b.submitted_at ≤ a.submitted_at)) :
    (insertDesc r l).Pairwise (fun a b => b.submitted_at ≤ a.submitted_at) := by
  induction l with
  | nil => simp [insertDesc]
  | cons x xs ih =>
    rw [List.pairwise_cons] at h
    rw [insertDesc]
    by_cases hcmp : x.submitted_at < r.submitted_at
    · rw [if_pos hcmp]
      rw [List.pairwise_cons]
      refine ⟨?_, List.pairwise_cons.mpr h⟩
      intro b hb
      rcases List.mem_cons.mp hb with h1 | h1
      · rw [h1]; exact Nat.le_of_lt hcmp
      · exact Nat.le_trans (h.1 b h1) (Nat.le_of_lt hcmp)
    · rw [if_neg hcmp]
      rw [List.pairwise_cons]
      refine ⟨?_, ih h.2⟩
      intro b hb
      rcases List.mem_cons.mp ((perm_insertDesc r xs).mem_iff.mp hb) with h1 | h1
      · rw [h1]; exact Nat.le_of_not_lt hcmp
      · exact h.1 b h1

theorem sorted_sortDesc (l : List SubmissionRow) :
    (sortDesc l).Pairwise (fun a b => b.submitted_at ≤ a.submitted_at) := by
  induction l with
  | nil => simp [sortDesc]
  | cons x xs ih => exact sorted_insertDesc x (sortDesc xs) ih

/-- Claim C9: a non-metadata old-table column is copied iff it is not
matched by a breaking-change name, exists by name in the new table (with a
non-empty, hence truthy, type), and is type-compatible; at most the 1000
most recent rows are copied (every copied row is at least as recent as
every row left behind); and a text value migrated into a date column yields
a date exactly when it matches the strict YYYY-MM-DD pattern, else NULL. -/
theorem C9_migration_selection_and_limits
    (oldCols newCols : List (String × String)) (changes : List SchemaChange)
    (col : String × String) (rows : List SubmissionRow) (s : String)
    (hmem : col ∈ oldCols) (hsys : col.1 ∉ systemColumns)
    (hnd : (oldCols.map Prod.fst).Nodup) :
    (col.1 ∈ migratableColumns oldCols newCols changes ↔
      (((breakingFields changes).any (fun bf => bf == jsToLowerStr col.1))
          = false ∧
        ∃ t, lookupJs newCols col.1 = some t ∧ t ≠ "" ∧
          areTypesCompatible col.2 t = true)) ∧
    (migratedRows rows).length ≤ 1000 ∧
    (∀ r ∈ migratedRows rows, r ∈ rows) ∧
    (∀ r ∈ migratedRows rows, ∀ q ∈ (sortDesc rows).drop 1000,
      q.submitted_at ≤ r.submitted_at) ∧
    (isStrictDate s = true → textToDateValue (some s) = some s) ∧
    (isStrictDate s = false → textToDateValue (some s) = none) := by
  refine ⟨?_, ?_, ?_, ?_, ?_, ?_⟩
  · constructor
    · intro h
      rcases List.mem_map.mp h with ⟨x, hx, hx1⟩
      have hxf := List.mem_filter.mp hx
      have hxcol : x = col :=
        List.inj_on_of_nodup_map hnd hxf.1 hmem hx1
      rw [hxcol] at hxf
      have hpred := hxf.2
      unfold isMigratable at hpred
      simp only [Bool.and_eq_true, Bool.not_eq_true'] at hpred
      refine ⟨hpred.1.2, ?_⟩
      rcases hlo : lookupJs newCols col.1 with _ | t
      · rw [hlo] at hpred
        exact absurd hpred.2 (by simp)
      · rw [hlo] at hpred
        refine ⟨t, rfl, ?_, ?_⟩
        · have := hpred.2
          simp only [Bool.and_eq_true, Bool.not_eq_true', beq_eq_false_iff_ne,
            ne_eq] at this
          exact this.1
        · have := hpred.2
          simp only [Bool.and_eq_true] at this
          exact this.2
    · rintro ⟨hany, t, hlo, hne, hcompat⟩
      have hpred : isMigratable changes newCols col = true := by
        unfold isMigratable
        rw [hlo, hany]
        have hcont : systemColumns.contains col.1 = false := by
          simpa using hsys
        rw [hcont]
        simp [hcompat, hne]
      exact List.mem_map.mpr ⟨col, List.mem_filter.mpr ⟨hmem, hpred⟩, rfl⟩
  · exact List.length_take_le _ _
  · intro r hr
    exact (perm_sortDesc rows).mem_iff.mp
      ((List.take_sublist _ _).subset hr)
  · intro r hr q hq
    have hsorted := sorted_sortDesc rows
    rw [← List.take_append_drop 1000 (sortDesc rows)] at hsorted
    exact (List.pairwise_append.mp hsorted).2.2 r hr q hq
  · intro h
    rw [textToDateValue, if_pos h]
  · intro h
    rw [textToDateValue, if_neg (by simp [h])]

/-- Witness for C9 at a concrete column, table pair, and row set. -/
theorem C9_migration_selection_and_limits_witness :
    (("name", "text") ∈ [(("name", "text") : String × String)] ∧
      ("name" : String) ∉ systemColumns ∧
      ([(("name", "text") : String × String)].map Prod.fst).Nodup) ∧
    (("name" : String) ∈ migratableColumns [("name", "text")]
        [("name", "character varying")] [] ↔
      (((breakingFields []).any (fun bf => bf == jsToLowerStr "name"))
          = false ∧
        ∃ t, lookupJs [("name", "character varying")] "name" = some t ∧
          t ≠ "" ∧ areTypesCompatible "text" t = true)) ∧
    (migratedRows [⟨1, 5⟩, ⟨2, 3⟩]).length ≤ 1000 ∧
    (∀ r ∈ migratedRows [⟨1, 5⟩, ⟨2, 3⟩], r ∈ [(⟨1, 5⟩ : SubmissionRow), ⟨2, 3⟩]) ∧
    (∀ r ∈ migratedRows [⟨1, 5⟩, ⟨2, 3⟩],
      ∀ q ∈ (sortDesc [⟨1, 5⟩, ⟨2, 3⟩]).drop 1000,
        q.submitted_at ≤ r.submitted_at) ∧
    (isStrictDate "2024-01-02" = true →
      textToDateValue (some "2024-01-02") = some "2024-01-02") ∧
    (isStrictDate "2024-01-02" = false →
      textToDateValue (some "2024-01-02") = none) :=
  ⟨⟨by decide, by decide, by decide⟩,
    C9_migration_selection_and_limits [("name", "text")]
      [("name", "character varying")] [] ("name", "text") [⟨1, 5⟩, ⟨2, 3⟩]
      "2024-01-02" (by decide) (by decide) (by decide)⟩

/-- Claim C7: for fields of declared type number/calculation, a null, empty
or unparseable value is stored as NULL and any other value as its parsed
number ("42" stores the number 42, "" stores NULL); for date/datetime/time
fields, a blank or whitespace-only value becomes NULL, anything else is
passed through unchanged. -/
theorem C7_value_coercion (s : String) (n : DecNum) :
    coerceNumber none = none ∧
    coerceNumber (some "") = none ∧
    coerceNumber (some "NaN") = none ∧
    (s ≠ "" → s ≠ "NaN" → jsParseFloat s = none →
      coerceNumber (some s) = none) ∧
    (s ≠ "" → s ≠ "NaN" → jsParseFloat s = some n →
      coerceNumber (some s) = some n) ∧
    coerceNumber (some "42") = some ⟨42, 0⟩ ∧
    coerceDateLike none = none ∧
    (jsTrim s = "" → coerceDateLike (some s) = none) ∧
    (jsTrim s ≠ "" → coerceDateLike (some s) = some s) := by
  refine ⟨rfl, by decide, by decide, ?_, ?_, by decide, rfl, ?_, ?_⟩
  · intro h1 h2 h3
    show (if s = "" ∨ s = "NaN" then none else jsParseFloat s) = none
    rw [if_neg (by simp [h1, h2]), h3]
  · intro h1 h2 h3
    show (if s = "" ∨ s = "NaN" then none else jsParseFloat s) = some n
    rw [if_neg (by simp [h1, h2]), h3]
  · intro h
    show (if jsTrim s = "" then none else some s) = none
    rw [if_pos h]
  · intro h
    show (if jsTrim s = "" then none else some s) = some s
    rw [if_neg h]

/-- Witness for C7 at the concrete values "42" and " ". -/
theorem C7_value_coercion_witness :
    (("42" : String) ≠ "" ∧ ("42" : String) ≠ "NaN" ∧
      jsParseFloat "42" = some ⟨42, 0⟩ ∧ jsTrim " " = "") ∧
    (coerceNumber (some "42") = some ⟨42, 0⟩ ∧
      coerceDateLike (some " ") = none) :=
  ⟨⟨by decide, by decide, by decide, by decide⟩,
    ⟨(C7_value_coercion "42" ⟨42, 0⟩).2.2.2.2.1 (by decide) (by decide)
        (by decide),
      (C7_value_coercion " " ⟨0, 0⟩).2.2.2.2.2.2.2.1 (by decide)⟩⟩

theorem lookup_mem (m : List (String × String)) (k v : String)
    (h : m.lookup k = some v) : (k, v) ∈ m := by
  induction m with
  | nil => simp [List.lookup] at h
  | cons p t ih =>
    rcases p with ⟨a, b⟩
    rw [List.lookup_cons] at h
    by_cases hk : (k == a) = true
    · rw [hk] at h
      simp only [Option.some.injEq] at h
      rw [← h, beq_iff_eq.mp hk]
      exact List.mem_cons_self _ _
    · rw [Bool.not_eq_true] at hk
      rw [hk] at h
      exact List.mem_cons_of_mem _ (ih h)

theorem lookup_isSome_of_mem_keys (m : List (String × String)) (k : String)
    (h : k ∈ m.map Prod.fst) : ∃ v, m.lookup k = some v := by
  induction m with
  | nil => simp at h
  | cons p t ih =>
    rcases p with ⟨a, b⟩
    rw [List.lookup_cons]
    by_cases hk : (k == a) = true
    · rw [hk]
      exact ⟨b, rfl⟩
    · rw [Bool.not_eq_true] at hk
      rw [hk]
      apply ih
      simp only [List.map_cons, List.mem_cons] at h
      rcases h with h | h
      · exact absurd (by simp [h] : (k == a) = true) (by rw [hk]; decide)
      · exact h

/-- Claim C8 counterexample: a submission whose only key names the metadata
column `id` matches nothing beyond the mandatory metadata columns, yet the
request succeeds and inserts a row instead of failing with the 400 error. -/
theorem C8_counterexample :
    postSubmission
      ["id", "user_id", "submitted_at", "template_version",
        "original_submission_id", "name"]
      [⟨"name", "inst1", "text"⟩] 1 1 [("id", some "7")] =
      SubmitOutcome.inserted
        [("user_id", CellValue.vnum ⟨1, 0⟩),
          ("template_version", CellValue.vnum ⟨1, 0⟩),
          ("id", CellValue.vstr "7")] ∧
    (submitToTable
        ["id", "user_id", "submitted_at", "template_version",
          "original_submission_id", "name"]
        [⟨"name", "inst1", "text"⟩] 1 1 [("id", some "7")] []).2 ≠ [] := by
  decide

/-- Claim C8 (amended): a submitted key whose lower-cased form names an
existing physical column always matches; unmatched keys are dropped without
error; and when no submitted key matches any physical column at all
(metadata columns included — a key naming a metadata column such as `id`
counts as a match and defeats the zero-match check), the request fails with
the 400 error and the table is left unchanged. -/
theorem C8_submission_matching (cols : List String) (fields : List FieldDef)
    (userId version : Nat) (data : List (String × Option String))
    (rows : List (List (String × CellValue))) (k : String) :
    (jsToLowerStr k ∈ cols.map jsToLowerStr →
      ∃ c, matchKey cols fields k = some c ∧
        jsToLowerStr c = jsToLowerStr k ∧ c ∈ cols) ∧
    (∀ c v, (c, v) ∈ matchedColumns cols fields data →
      ∃ kv ∈ data, matchKey cols fields kv.1 = some c) ∧
    ((∀ kv ∈ data, matchKey cols fields kv.1 = none) →
      postSubmission cols fields userId version data =
        SubmitOutcome.badRequest ∧
      (submitToTable cols fields userId version data rows).2 = rows) := by
  refine ⟨?_, ?_, ?_⟩
  · intro hk
    have hmem : jsToLowerStr k ∈
        ((cols.map (fun c => (jsToLowerStr c, c))).reverse).map Prod.fst := by
      rw [List.map_reverse, List.mem_reverse, List.map_map]
      simpa using hk
    rcases lookup_isSome_of_mem_keys _ _ hmem with ⟨c, hc⟩
    have hcm : columnMap cols (jsToLowerStr k) = some c := hc
    have hpair := lookup_mem _ _ _ hc
    rw [List.mem_reverse] at hpair
    rcases List.mem_map.mp hpair with ⟨c0, hc0, hc0e⟩
    have hc0c : c0 = c := congrArg Prod.snd hc0e
    have hlow : jsToLowerStr c0 = jsToLowerStr k := congrArg Prod.fst hc0e
    refine ⟨c, ?_, ?_, ?_⟩
    · rw [matchKey, hcm]
    · rw [← hc0c, hlow]
    · rw [← hc0c]; exact hc0
  · intro c v hcv
    rcases List.mem_filterMap.mp hcv with ⟨kv, hkv, hf⟩
    refine ⟨kv, hkv, ?_⟩
    rcases hmk : matchKey cols fields kv.1 with _ | c1
    · rw [hmk] at hf; cases hf
    · rw [hmk] at hf
      simp only [Option.some.injEq, Prod.mk.injEq] at hf
      rw [hf.1]
  · intro hnone
    have hmc : matchedColumns cols fields data = [] := by
      apply List.filterMap_eq_nil_iff.mpr
      intro kv hkv
      rw [hnone kv hkv]
    have hpost : postSubmission cols fields userId version data =
        SubmitOutcome.badRequest := by
      rw [postSubmission, hmc]
      rfl
    refine ⟨hpost, ?_⟩
    rw [submitToTable, hpost]

/-- Witness for C8 (amended): every key of the payload
`{foo_bar: "x"}` is unmatched, so the request 400s and the table is
unchanged. -/
theorem C8_submission_matching_witness :
    (∀ kv ∈ [(("foo_bar" : String), (some "x" : Option String))],
      matchKey ["id", "user_id", "submitted_at", "template_version",
          "original_submission_id", "name"]
        [⟨"name", "inst1", "text"⟩] kv.1 = none) ∧
    (postSubmission ["id", "user_id", "submitted_at", "template_version",
          "original_submission_id", "name"]
        [⟨"name", "inst1", "text"⟩] 1 1 [("foo_bar", some "x")] =
        SubmitOutcome.badRequest ∧
      (submitToTable ["id", "user_id", "submitted_at", "template_version",
          "original_submission_id", "name"]
        [⟨"name", "inst1", "text"⟩] 1 1 [("foo_bar", some "x")] []).2 = []) :=
  ⟨by decide,
    (C8_submission_matching ["id", "user_id", "submitted_at",
        "template_version", "original_submission_id", "name"]
      [⟨"name", "inst1", "text"⟩] 1 1 [("foo_bar", some "x")] [] "x").2.2
      (by decide)⟩

theorem newFieldRows_filter (id : Nat) (o : Option (List FieldConfig)) :
    ((match o with
      | some cfgs => cfgs.map (mkFieldRow id)
      | none => ([] : List FieldRow)).filter
        (fun (f : FieldRow) => (f.templateId == id))) =
      (match o with
       | some cfgs => cfgs.map (mkFieldRow id)
       | none => ([] : List FieldRow)) ∧
    ((match o with
      | some cfgs => cfgs.map (mkFieldRow id)
      | none => ([] : List FieldRow)).filter
        (fun (f : FieldRow) => !(f.templateId == id))) = [] := by
  rcases o with _ | cfgs
  · exact ⟨rfl, rfl⟩
  · constructor
    · apply List.filter_eq_self.mpr
      intro a ha
      rcases List.mem_map.mp ha with ⟨c, _, hc⟩
      rw [← hc]
      exact beq_self_eq_true _
    · apply List.filter_eq_nil_iff.mpr
      intro a ha
      rcases List.mem_map.mp ha with ⟨c, _, hc⟩
      rw [← hc]
      simp [mkFieldRow]

/-- Claim C10: an in-place (non-breaking) template update leaves version,
table_name, parent_template_id and is_active unchanged (only name, markup,
configuration JSON, positions, sheets, css, access control and updated_at
are written), and it always deletes every existing Field Definition row of
the template before reinserting the supplied set, so an update whose
field_configurations is empty or missing leaves zero Field Definition
rows. -/
theorem C10_inplace_update_frame (st : DBState) (id now : Nat)
    (req : TemplateReq)
    (h : ∃ r ∈ st.templates, r.tid = id) :
    ∃ st', updateInPlace id now req st = some st' ∧
      InPlaceUpdateSpec st id now req st' := by
  rcases h with ⟨r0, hr0, hid0⟩
  have hne : (st.templates.filter (fun r => r.tid == id)).isEmpty = false := by
    rw [List.isEmpty_eq_false]
    intro hnil
    have : r0 ∈ st.templates.filter (fun r => r.tid == id) :=
      List.mem_filter.mpr ⟨hr0, by rw [hid0]; exact beq_self_eq_true _⟩
    rw [hnil] at this
    cases this
  refine ⟨{ templates := st.templates.map (applyInPlaceUpdate id now req),
            fields := st.fields.filter (fun f => !(f.templateId == id)) ++
              (match req.field_configurations with
               | some cfgs => cfgs.map (mkFieldRow id)
               | none => []),
            images := st.images, tables := st.tables }, ?_, ?_⟩
  · rw [updateInPlace, hne]
    rfl
  unfold InPlaceUpdateSpec
  refine ⟨?_, ?_, ?_, ?_, rfl, rfl⟩
  · intro r hr
    refine ⟨List.mem_map_of_mem _ hr, ?_⟩
    by_cases hc : (r.tid == id) = true
    · rw [applyInPlaceUpdate, if_pos hc]
      refine ⟨rfl, rfl, rfl, rfl, rfl, rfl, ?_, fun _ => ⟨rfl, rfl⟩⟩
      intro hne2
      exact absurd (beq_iff_eq.mp hc) hne2
    · rw [applyInPlaceUpdate, if_neg hc]
      refine ⟨rfl, rfl, rfl, rfl, rfl, rfl, fun _ => rfl, ?_⟩
      intro heq
      exact absurd (by rw [heq]; exact beq_self_eq_true _) hc
  · show (st.fields.filter (fun f => !(f.templateId == id)) ++
      (match req.field_configurations with
       | some cfgs => cfgs.map (mkFieldRow id)
       | none => [])).filter (fun f => f.templateId == id) =
      (match req.field_configurations with
       | some cfgs => cfgs.map (mkFieldRow id)
       | none => [])
    rw [List.filter_append, List.filter_filter]
    have h1 : (st.fields.filter
        (fun a => (a.templateId == id) && !(a.templateId == id))) = [] := by
      apply List.filter_eq_nil_iff.mpr
      intro a _
      cases hc : (a.templateId == id) <;> simp [hc]
    rw [h1, List.nil_append, (newFieldRows_filter id req.field_configurations).1]
  · intro hempty f hf hfid
    rcases List.mem_append.mp hf with h1 | h1
    · have := (List.mem_filter.mp h1).2
      rw [hfid] at this
      simp at this
    · rcases hempty with he | he <;> rw [he] at h1
      · cases h1
      · cases h1
  · show (st.fields.filter (fun f => !(f.templateId == id)) ++
      (match req.field_configurations with
       | some cfgs => cfgs.map (mkFieldRow id)
       | none => [])).filter (fun f => !(f.templateId == id)) =
      st.fields.filter (fun f => !(f.templateId == id))
    rw [List.filter_append, List.filter_filter]
    have h1 : (st.fields.filter
        (fun a => !(a.templateId == id) && !(a.templateId == id))) =
        st.fields.filter (fun f => !(f.templateId == id)) := by
      congr 1
      funext a
      cases hc : (a.templateId == id) <;> simp [hc]
    rw [h1, (newFieldRows_filter id req.field_configurations).2,
      List.append_nil]

/-- Witness for C10: an in-place update of the third lineage member with a
missing field_configurations leaves its versioning columns alone and
deletes all of its field rows. -/
theorem C10_inplace_update_frame_witness :
    (∃ r ∈ exSt4.templates, r.tid = 3) ∧
    (∃ st', updateInPlace 3 7 reqC exSt4 = some st' ∧
      InPlaceUpdateSpec exSt4 3 7 reqC st') :=
  ⟨by decide, C10_inplace_update_frame exSt4 3 7 reqC (by decide)⟩

/-- Claim C4 counterexample: in a three-version lineage rooted at id 1,
deleting the non-root member id 2 leaves the rows, tables, fields and
images of ids 1 and 3 in place — the whole lineage is NOT removed. -/
theorem C4_counterexample :
    (deleteTemplate 2 exSt4).map
      (fun st => (st.templates.map (fun r => r.tid), st.tables,
        st.fields.map (fun f => f.templateId),
        st.images.map (fun i => i.templateId))) =
      some ([1, 3], ["checksheet_1_1", "checksheet_1_3"], [1, 3], [1, 3]) := by
  decide

/-- Claim C4 (amended): DELETE /templates/:id removes exactly the template
rows whose id is the addressed id or whose parent_template_id is the
addressed id, together with their physical tables, Field Definition rows
and Image Asset rows, and retains everything else; the whole lineage is
removed only when the addressed id is the lineage root, since forked
versions all point at the root. -/
theorem contains_iff_mem {α : Type} [BEq α] [LawfulBEq α]
    (l : List α) (a : α) : l.contains a = true ↔ a ∈ l := by
  simp

theorem C4_delete_scope (st : DBState) (id : Nat)
    (h : ∃ r ∈ st.templates, r.tid = id) :
    ∃ st', deleteTemplate id st = some st' ∧ DeleteSpec st id st' := by
  rcases h with ⟨r0, hr0, hid0⟩
  have hne : (st.templates.filter (fun r => r.tid == id)).isEmpty = false := by
    rw [List.isEmpty_eq_false]
    intro hnil
    have : r0 ∈ st.templates.filter (fun r => r.tid == id) :=
      List.mem_filter.mpr ⟨hr0, by rw [hid0]; exact beq_self_eq_true _⟩
    rw [hnil] at this
    cases this
  have hmemb : ∀ r : TemplateRow, r ∈ st.templates.filter
      (fun r => r.tid == id || r.parent == some id) ↔
      (r ∈ st.templates ∧ (r.tid = id ∨ r.parent = some id)) := by
    intro r
    rw [List.mem_filter]
    simp only [Bool.or_eq_true, beq_iff_eq]
  refine ⟨_, by rw [deleteTemplate, hne]; rfl, ?_⟩
  unfold DeleteSpec
  refine ⟨?_, ?_, ?_, ?_, ?_, ?_⟩
  · intro r hr
    have h2 := (List.mem_filter.mp hr).2
    simp only [Bool.not_eq_eq_eq_not, Bool.not_true, Bool.or_eq_false_iff,
      beq_eq_false_iff_ne, ne_eq] at h2
    exact h2
  · intro r hr h1 h2
    apply List.mem_filter.mpr
    refine ⟨hr, ?_⟩
    simp only [Bool.not_eq_eq_eq_not, Bool.not_true, Bool.or_eq_false_iff,
      beq_eq_false_iff_ne, ne_eq]
    exact ⟨h1, h2⟩
  · intro f hf r hr hrid hcon
    have h2 := (List.mem_filter.mp hf).2
    rw [Bool.not_eq_eq_eq_not, Bool.not_true] at h2
    have hrm := (hmemb r).mpr ⟨hr, hrid⟩
    have hmm : f.templateId ∈ (st.templates.filter
        (fun r => r.tid == id || r.parent == some id)).map (fun r => r.tid) := by
      rw [hcon]
      exact List.mem_map_of_mem _ hrm
    rw [(contains_iff_mem _ _).mpr hmm] at h2
    cases h2
  · intro i hi r hr hrid hcon
    have h2 := (List.mem_filter.mp hi).2
    rw [Bool.not_eq_eq_eq_not, Bool.not_true] at h2
    have hrm := (hmemb r).mpr ⟨hr, hrid⟩
    have hmm : i.templateId ∈ (st.templates.filter
        (fun r => r.tid == id || r.parent == some id)).map (fun r => r.tid) := by
      rw [hcon]
      exact List.mem_map_of_mem _ hrm
    rw [(contains_iff_mem _ _).mpr hmm] at h2
    cases h2
  · intro r hr hrid tn htn hcon
    have h2 := (List.mem_filter.mp hcon).2
    rw [Bool.not_eq_eq_eq_not, Bool.not_true] at h2
    have hrm := (hmemb r).mpr ⟨hr, hrid⟩
    have hmm : tn ∈ (st.templates.filter
        (fun r => r.tid == id || r.parent == some id)).filterMap
          (fun r => r.table_name) :=
      List.mem_filterMap.mpr ⟨r, hrm, htn⟩
    rw [(contains_iff_mem _ _).mpr hmm] at h2
    cases h2
  · intro f hf hnone
    apply List.mem_filter.mpr
    refine ⟨hf, ?_⟩
    rw [Bool.not_eq_eq_eq_not, Bool.not_true]
    cases hc : ((st.templates.filter
        (fun r => r.tid == id || r.parent == some id)).map
          (fun r => r.tid)).contains f.templateId with
    | false => rfl
    | true =>
      exfalso
      have hmm := (contains_iff_mem _ _).mp hc
      rcases List.mem_map.mp hmm with ⟨r, hrm, hrx⟩
      have hpair := (hmemb r).mp hrm
      exact hnone r hpair.1 hpair.2 hrx.symm

/-- Witness for C4 (amended): deleting the lineage ROOT id 1 removes all
three versions, their tables, fields and images, leaving nothing orphaned. -/
theorem C4_delete_scope_witness :
    (∃ r ∈ exSt4.templates, r.tid = 1) ∧
    (∃ st', deleteTemplate 1 exSt4 = some st' ∧ DeleteSpec exSt4 1 st') :=
  ⟨by decide, C4_delete_scope exSt4 1 (by decide)⟩

theorem archiveRow_version (id now : Nat) (r : TemplateRow) :
    (archiveRow id now r).version = r.version := by
  unfold archiveRow
  by_cases hc : (r.tid == id) = true
  · rw [if_pos hc]
  · rw [if_neg hc]

theorem archiveRow_lineagePred (p id now : Nat) (r : TemplateRow) :
    ((archiveRow id now r).parent == some p || (archiveRow id now r).tid == p)
      = (r.parent == some p || r.tid == p) := by
  unfold archiveRow
  by_cases hc : (r.tid == id) = true
  · rw [if_pos hc]
  · rw [if_neg hc]

theorem lineage_map_archive (p id now : Nat) (ts : List TemplateRow) :
    lineage p (ts.map (archiveRow id now)) =
      (lineage p ts).map (archiveRow id now) := by
  unfold lineage
  induction ts with
  | nil => rfl
  | cons r rs ih =>
    rw [List.map_cons, List.filter_cons, List.filter_cons,
      archiveRow_lineagePred]
    by_cases hc : (r.parent == some p || r.tid == p) = true
    · rw [if_pos hc, if_pos hc, List.map_cons, ih]
    · rw [if_neg hc, if_neg hc, ih]

theorem foldl_max_range (n : Nat) :
    List.foldl max 0 (List.range' 1 n) = n := by
  induction n with
  | zero => rfl
  | succ m ih =>
    rw [List.range'_concat, List.foldl_append, ih]
    show max m (1 + 1 * m) = m + 1
    omega

theorem maxVersion_of_invariant (p : Nat) (ts : List TemplateRow)
    (h : VersionInvariant p ts) :
    maxVersionInLineage p ts = (lineage p ts).length := by
  unfold maxVersionInLineage
  have hperm := h.2
  unfold lineageVersions at hperm
  rw [hperm.foldl_eq 0]
  exact foldl_max_range _

theorem countP_one_unique {α : Type} (pred : α → Bool) (l : List α) (t : α)
    (hc : l.countP pred = 1) (ht : t ∈ l) (hp : pred t = true) :
    ∀ r ∈ l, r ≠ t → pred r = false := by
  intro r hr hne
  rw [List.countP_eq_length_filter] at hc
  rcases List.length_eq_one.mp hc with ⟨x, hx⟩
  have htf : t ∈ l.filter pred := List.mem_filter.mpr ⟨ht, hp⟩
  rw [hx] at htf
  have hxt : x = t := (List.mem_singleton.mp htf).symm
  cases hcr : pred r with
  | false => rfl
  | true =>
    exfalso
    have hrf : r ∈ l.filter pred := List.mem_filter.mpr ⟨hr, hcr⟩
    rw [hx, hxt] at hrf
    exact hne (List.mem_singleton.mp hrf)

/-- Claim C2 counterexample: publish template 1, make a breaking update of
it (archiving version 1 and inserting active version 2), then make another
breaking update addressed to the ARCHIVED version 1 — the update succeeds
(the route only checks existence, not activity) and inserts a third active
row, leaving TWO active rows in the lineage. -/
theorem C2_counterexample :
    (((publish 1 0 reqA emptyDB).bind
        (updateBreaking 1 none 2 1 reqB)).bind
        (updateBreaking 1 none 3 2 reqB)).map
      (fun st => activeCount 1 st.templates) = some 2 := by
  decide

/-- Claim C2 (amended): provided a breaking update is addressed to the
currently ACTIVE member of the lineage and carries the lineage root as
`original_template_id` (or targets the root itself with none), the lineage
invariant is preserved: exactly one active row afterwards, versions exactly
1..n+1, the addressed row archived, and exactly one new row inserted with
version = max + 1, active = true and table name `checksheet_<root>_<v>`.
An update addressed to an archived member (see the counterexample) breaks
the single-active-row invariant. -/
theorem C2_version_invariant (st : DBState) (id newId now p : Nat)
    (origId : Option Nat) (req : TemplateReq)
    (hInv : VersionInvariant p st.templates)
    (ht : ∃ t ∈ st.templates, t.tid = id ∧ t.active = true ∧
      (t.parent = some p ∨ t.tid = p))
    (horig : origId = some p ∨ (origId = none ∧ id = p)) :
    ∃ st', updateBreaking id origId newId now req st = some st' ∧
      BreakingUpdateSpec st id p newId now req st' := by
  rcases ht with ⟨t, htm, htid, htact, htlin⟩
  have hp : origId.getD id = p := by
    rcases horig with h | ⟨h1, h2⟩
    · rw [h]; rfl
    · rw [h1]; exact h2
  have hne : (st.templates.filter (fun r => r.tid == id)).isEmpty = false := by
    rw [List.isEmpty_eq_false]
    intro hnil
    have : t ∈ st.templates.filter (fun r => r.tid == id) :=
      List.mem_filter.mpr ⟨htm, by rw [htid]; exact beq_self_eq_true _⟩
    rw [hnil] at this
    cases this
  have htpred : (t.parent == some p || t.tid == p) = true := by
    rcases htlin with h | h
    · rw [h]; simp
    · rw [h]; simp
  have htlinmem : t ∈ lineage p st.templates :=
    List.mem_filter.mpr ⟨htm, htpred⟩
  have hn : maxVersionInLineage p st.templates =
      (lineage p st.templates).length := maxVersion_of_invariant p _ hInv
  refine ⟨_, by rw [updateBreaking, hne, hp]; rfl, ?_⟩
  unfold BreakingUpdateSpec
  have hforkpred : ((forkRow newId p (maxVersionInLineage p st.templates + 1)
      now req).parent == some p ||
      (forkRow newId p (maxVersionInLineage p st.templates + 1) now req).tid
        == p) = true := by
    show ((some p == some p) || _) = true
    simp
  have hlin' : lineage p (st.templates.map (archiveRow id now) ++
      [forkRow newId p (maxVersionInLineage p st.templates + 1) now req]) =
      (lineage p st.templates).map (archiveRow id now) ++
      [forkRow newId p (maxVersionInLineage p st.templates + 1) now req] := by
    unfold lineage
    rw [List.filter_append]
    have h1 : List.filter
        (fun r => r.parent == some p || r.tid == p)
        [forkRow newId p (maxVersionInLineage p st.templates + 1) now req] =
        [forkRow newId p (maxVersionInLineage p st.templates + 1) now req] := by
      rw [List.filter_cons, if_pos hforkpred]
      rfl
    rw [h1]
    have h2 := lineage_map_archive p id now st.templates
    unfold lineage at h2
    rw [h2]
  have hcount0 : ((lineage p st.templates).map (archiveRow id now)).countP
      (fun r => r.active) = 0 := by
    rw [List.countP_map, List.countP_eq_zero]
    intro r hr
    show ¬((archiveRow id now r).active = true)
    by_cases hc : (r.tid == id) = true
    · rw [archiveRow, if_pos hc]
      simp
    · rw [archiveRow, if_neg hc]
      have hrt : r ≠ t := by
        intro hcon
        rw [hcon, htid] at hc
        exact hc (beq_self_eq_true _)
      have hfalse : r.active = false :=
        countP_one_unique (fun r => r.active) _ t
          (show (lineage p st.templates).countP (fun r => r.active) = 1
            from hInv.1)
          htlinmem htact r hr hrt
      rw [hfalse]
      simp
  have hlen' : (lineage p (st.templates.map (archiveRow id now) ++
      [forkRow newId p (maxVersionInLineage p st.templates + 1) now
        req])).length = (lineage p st.templates).length + 1 := by
    rw [hlin', List.length_append, List.length_map]
    rfl
  refine ⟨⟨?_, ?_⟩, hlen', rfl, hn, rfl, rfl, rfl⟩
  · unfold activeCount
    rw [hlin', List.countP_append, hcount0]
    rfl
  · unfold lineageVersions
    rw [hlin', List.map_append, List.map_map, List.length_append,
      List.length_map]
    have hver : (lineage p st.templates).map
        ((fun r => r.version) ∘ archiveRow id now) =
        (lineage p st.templates).map (fun r => r.version) := by
      apply List.map_congr_left
      intro a _
      exact archiveRow_version id now a
    rw [hver]
    show ((lineage p st.templates).map (fun r => r.version) ++
      [maxVersionInLineage p st.templates + 1]).Perm
      (List.range' 1 ((lineage p st.templates).length + 1))
    rw [List.range'_concat, hn]
    have h3 : 1 + 1 * (lineage p st.templates).length =
        (lineage p st.templates).length + 1 := by omega
    rw [h3]
    refine List.Perm.append_right _ ?_
    have h4 := hInv.2
    unfold lineageVersions at h4
    exact h4

/-- Witness for C2 (amended): a breaking update of the freshly published
root (active, version 1) preserves the lineage invariant. -/
theorem C2_version_invariant_witness :
    (VersionInvariant 1 exSt2.templates ∧
      (∃ t ∈ exSt2.templates, t.tid = 1 ∧ t.active = true ∧
        (t.parent = some 1 ∨ t.tid = 1)) ∧
      ((none : Option Nat) = some 1 ∨
        ((none : Option Nat) = none ∧ 1 = 1))) ∧
    (∃ st', updateBreaking 1 none 2 5 reqB exSt2 = some st' ∧
      BreakingUpdateSpec exSt2 1 1 2 5 reqB st') :=
  ⟨⟨by decide, by decide, by decide⟩,
    C2_version_invariant exSt2 1 2 5 1 none reqB (by decide) (by decide)
      (by decide)⟩
